import Mathlib

/-! Verification of the EV3 measurement-sensor device class
(drivers/legoev3/msensor_class.c): the float/fixed-point numeric codec
(msensor_ftoi, msensor_itof) and the mode-table-driven device operations
(mode listing, mode switching, typed value decoding, binary raw-buffer
reads).  The C code targets 32-bit ARM (the EV3 brick), so int and
unsigned long are 32 bits wide; machine arithmetic is modelled over
Nat/Int with explicit reduction modulo 2^32 at each point where the
32-bit unsigned long computation can wrap.  Shift amounts at or above
the 32-bit word size are undefined behaviour in C; where they can arise
(exponent fields below 119 in msensor_ftoi) the model takes the
untruncated mathematical shift, and theorems about that region of the
input space are stated with the exponent field restricted to the
well-defined range. -/

/-- INT_MAX on the 32-bit target. -/
def INT_MAX : Int := 2147483647

/-- INT_MIN on the 32-bit target. -/
def INT_MIN : Int := -2147483648

/-- The errno constant EINVAL; the C code reports it as -EINVAL. -/
def EINVAL : Int := 22

/-- The errno constant ENXIO; the C code reports it as minus ENXIO. -/
def ENXIO_errno : Int := 6

/-- Value of a 32-bit machine int obtained from an arbitrary integer:
reduce modulo 2^32 and reinterpret as two's complement.  Models the C
unsigned-long-to-int conversion on the target (gcc, two's complement
wraparound). -/
def toInt32 (u : Int) : Int :=
  let r := u % 2^32
  if r < 2^31 then r else r - 2^32

/-- Two's complement value of the low w bits of a natural number; models
reading a stored little-endian machine integer of width w as signed. -/
def toSigned (w : Nat) (n : Nat) : Int :=
  let r := n % 2^w
  if r < 2^(w-1) then (r : Int) else (r : Int) - 2^w

/-- Sign factor of msensor_ftoi: the local s = (f & 0x80000000) ? -1 : 1. -/
def ftoi_sign (f : Nat) : Int := if f &&& 0x80000000 ≠ 0 then -1 else 1

/-- Exponent field extracted by msensor_ftoi: e = (f & 0x7F800000) >> 23. -/
def fexp (f : Nat) : Nat := (f &&& 0x7F800000) >>> 23

/-- Mantissa field extracted by msensor_ftoi: i = f & 0x007FFFFF. -/
def fman (f : Nat) : Nat := f &&& 0x007FFFFF

/-- The loop while (dp--) i *= 10 of msensor_ftoi on a 32-bit unsigned
long (each multiplication wraps modulo 2^32). -/
def scale10 (i : Nat) : Nat → Nat
  | 0 => i
  | dp + 1 => scale10 ((i * 10) % 2^32) dp

/-- msensor_ftoi: convert a 32-bit IEEE 754 float bit pattern to a fixed
point integer with dp decimal places.  Direct translation of the C
function: the locals s, e, i are ftoi_sign f, fexp f and fman f; a zero
exponent field yields 0, an all-ones exponent field yields INT_MAX or
INT_MIN by sign, otherwise the implicit leading mantissa bit is added,
the mantissa is scaled by 10^dp with 32-bit wraparound, the binary
exponent shift is applied (with wraparound on the left shift, and half
of the truncated remainder added before a right shift), and the sign is
applied by a multiplication whose result is converted to a 32-bit int. -/
def msensor_ftoi (f : Nat) (dp : Nat) : Int :=
  let e := fexp f
  if e = 0 then 0
  else if e = 255 then (if ftoi_sign f = 1 then INT_MAX else INT_MIN)
  else
    let i0 := fman f + (1 <<< 23)
    let i1 := scale10 i0 dp
    let i2 :=
      if e < 150 then
        let m := i1 % (1 <<< (150 - e))
        ((i1 + (m >>> 1)) % 2^32) >>> (150 - e)
      else
        (i1 <<< (e - 150)) % 2^32
    toInt32 (ftoi_sign f * (i2 : Int))

/-- The loop while (dp-- > 0) f /= 10 of msensor_itof (truncating
unsigned division; no wraparound possible). -/
def div10_loop (f : Nat) : Nat → Nat
  | 0 => f
  | dp + 1 => div10_loop (f / 10) dp

/-- The first normalization loop of msensor_itof,
while (f >= (1 << 24)) { f >>= 1; e++; }, with e an unsigned char
(wrapping modulo 256).  The loop is modelled with explicit fuel; it
needs at most 8 iterations for any 32-bit f, so any fuel of at least 8
makes it total on the values the C variable can hold. -/
def norm_down (fuel : Nat) (f : Nat) (e : Nat) : Option (Nat × Nat) :=
  if f < 1 <<< 24 then some (f, e)
  else
    match fuel with
    | 0 => none
    | fuel' + 1 => norm_down fuel' (f >>> 1) ((e + 1) % 256)

/-- The second normalization loop of msensor_itof,
while (f < (1 << 23)) { f <<= 1; e--; }, with e an unsigned char
(wrapping modulo 256) and f a 32-bit unsigned long.  Modelled with
explicit fuel: when f = 0 the guard never becomes false and no amount
of fuel yields a result, which is exactly the C loop never
terminating. -/
def norm_up (fuel : Nat) (f : Nat) (e : Nat) : Option (Nat × Nat) :=
  if 1 <<< 23 ≤ f then some (f, e)
  else
    match fuel with
    | 0 => none
    | fuel' + 1 => norm_up fuel' ((f <<< 1) % 2^32) ((e + 255) % 256)

/-- msensor_itof: convert a fixed point integer with dp decimal places
to a 32-bit IEEE 754 float bit pattern.  Direct translation of the C
function with the two while loops given explicit fuel (a none result
models the loop not terminating): f = (unsigned long)(i * s) is the
absolute value (also for INT_MIN, where the C multiplication wraps back
to INT_MIN), shifted into the mantissa field modulo 2^32, divided dp
times by 10, normalized into the interval from 2^23 to 2^24, and
assembled as sign, exponent and mantissa with the implicit leading bit
removed. -/
def msensor_itof (fuel : Nat) (i : Int) (dp : Nat) : Option Nat :=
  let s : Int := if i < 0 then -1 else 1
  let f0 : Nat := ((i * s) % (2^32 : Int)).toNat
  if i = 0 then some 0
  else
    let f1 := (f0 <<< 23) % 2^32
    let f2 := div10_loop f1 dp
    match norm_down fuel f2 127 with
    | none => none
    | some (f3, e3) =>
      match norm_up fuel f3 e3 with
      | none => none
      | some (f4, e4) =>
        let f5 := f4 - (1 <<< 23)
        let f6 := if s = -1 then f5 ||| 0x80000000 else f5
        some (f6 ||| (e4 <<< 23))

/-- Data formats of a sensor mode (the four recognized values of the
format field consumed by msensor_show_value and
msensor_show_bin_data_format). -/
inductive msensor_data_format
  | MSENSOR_DATA_8
  | MSENSOR_DATA_16
  | MSENSOR_DATA_32
  | MSENSOR_DATA_FLOAT
deriving DecidableEq

/-- Per-mode metadata and raw buffer of struct msensor_mode_info, in the
fields the verified operations consume.  Strings are byte/char lists;
raw_data is the byte buffer, each entry below 256. -/
structure msensor_mode_info where
  name : List Char
  decimals : Nat
  data_sets : Nat
  format : msensor_data_format
  raw_data : List Nat

/-- msensor_raw_s8_value: *(s8 *)(raw_data + index).  Bytes outside the
buffer read as 0 in the model (the C would read adjacent memory). -/
def msensor_raw_s8_value (mi : msensor_mode_info) (index : Nat) : Int :=
  toSigned 8 (mi.raw_data.getD index 0)

/-- msensor_raw_s16_value: *(s16 *)(raw_data + index * 2), a
little-endian two-byte load on the ARM target. -/
def msensor_raw_s16_value (mi : msensor_mode_info) (index : Nat) : Int :=
  toSigned 16 (mi.raw_data.getD (index * 2) 0
    + 256 * mi.raw_data.getD (index * 2 + 1) 0)

/-- msensor_raw_s32_value: *(s32 *)(raw_data + index * 4), a
little-endian four-byte load on the ARM target. -/
def msensor_raw_s32_value (mi : msensor_mode_info) (index : Nat) : Int :=
  toSigned 32 (mi.raw_data.getD (index * 4) 0
    + 256 * mi.raw_data.getD (index * 4 + 1) 0
    + 65536 * mi.raw_data.getD (index * 4 + 2) 0
    + 16777216 * mi.raw_data.getD (index * 4 + 3) 0)

/-- msensor_raw_float_value: msensor_ftoi applied to the little-endian
u32 at raw_data + index * 4 with the mode's decimals. -/
def msensor_raw_float_value (mi : msensor_mode_info) (index : Nat) : Int :=
  msensor_ftoi
    (mi.raw_data.getD (index * 4) 0
      + 256 * mi.raw_data.getD (index * 4 + 1) 0
      + 65536 * mi.raw_data.getD (index * 4 + 2) 0
      + 16777216 * mi.raw_data.getD (index * 4 + 3) 0)
    mi.decimals

/-- Core of msensor_show_value for the current mode's info and a parsed
value index: the bounds check index < 0 || index >= data_sets yields
minus ENXIO, otherwise the raw buffer is decoded according to the mode's
format.  The sprintf of the decoded number is abstracted to returning
the number itself. -/
def msensor_show_value (mi : msensor_mode_info) (index : Int) : Except Int Int :=
  if index < 0 ∨ (mi.data_sets : Int) ≤ index then Except.error (-ENXIO_errno)
  else
    match mi.format with
    | .MSENSOR_DATA_8 => Except.ok (msensor_raw_s8_value mi index.toNat)
    | .MSENSOR_DATA_16 => Except.ok (msensor_raw_s16_value mi index.toNat)
    | .MSENSOR_DATA_32 => Except.ok (msensor_raw_s32_value mi index.toNat)
    | .MSENSOR_DATA_FLOAT => Except.ok (msensor_raw_float_value mi index.toNat)

/-- A char list with one trailing newline removed, used to model
sysfs_streq below. -/
def drop_trailing_nl (s : List Char) : List Char :=
  if s.getLast? = some '\n' then s.dropLast else s

/-- sysfs_streq: equality of the two strings ignoring one trailing
newline on either side (the kernel helper treats newline-then-NUL like
NUL so that echoed values compare equal). -/
def sysfs_streq (s1 s2 : List Char) : Bool :=
  drop_trailing_nl s1 == drop_trailing_nl s2

/-- The for loop of msensor_store_mode over the mode table, carried out
from entry index a: the first name for which sysfs_streq(buf, name)
holds selects its index i for the driver's set_mode callback; a nonzero
callback result is returned as is, success returns count, and falling
off the table returns -EINVAL.  The driver context is threaded
explicitly since the callback may change the driver's state. -/
def store_mode_loop {σ : Type} (set_mode : σ → Nat → Int × σ) (ctx : σ)
    (buf : List Char) (count : Int) : List (List Char) → Nat → Int × σ
  | [], _ => (-EINVAL, ctx)
  | nm :: rest, i =>
    if sysfs_streq buf nm then
      let r := set_mode ctx i
      if r.1 ≠ 0 then (r.1, r.2) else (count, r.2)
    else store_mode_loop set_mode ctx buf count rest (i + 1)

/-- msensor_store_mode: scan the mode-name table from index 0 for the
requested name and delegate to the driver's set_mode callback. -/
def msensor_store_mode {σ : Type} (set_mode : σ → Nat → Int × σ) (ctx : σ)
    (names : List (List Char)) (buf : List Char) (count : Int) : Int × σ :=
  store_mode_loop set_mode ctx buf count names 0

/-- The for loop of msensor_show_mode from entry index a: each mode name
is emitted, wrapped in square brackets when its index equals the current
mode, and followed by one space character. -/
def show_mode_loop (mode : Nat) : List (List Char) → Nat → List Char
  | [], _ => []
  | nm :: rest, i =>
    (if i = mode then ['['] else []) ++ nm ++ (if i = mode then [']'] else [])
      ++ [' '] ++ show_mode_loop mode rest (i + 1)

/-- msensor_show_mode: emit the decorated name list; a zero character
count (empty mode table) yields minus ENXIO, otherwise the final trailing
space is overwritten with a newline (buf[count - 1] = the newline). -/
def msensor_show_mode (names : List (List Char)) (mode : Nat) : Except Int (List Char) :=
  let s := show_mode_loop mode names 0
  if s = [] then Except.error (-ENXIO_errno)
  else Except.ok (s.dropLast ++ ['\n'])

/-- The declared size of the bin_data attribute
(MSENSOR_RAW_DATA_SIZE, 8 values of 4 bytes). -/
def MSENSOR_RAW_DATA_SIZE : Nat := 32

/-- msensor_read_bin_data: the sysfs binary read callback.  buf is the
destination page, modelled as a function from byte position to byte.
The C body: offsets at or past attr->size, or a zero count, return 0;
otherwise size becomes min(count, attr->size - off) and
memcpy(buf + off, raw_data, size) runs, i.e. raw_data[t] is written to
buf[off + t] for t < size — the copy source starts at the beginning of
the raw buffer, not at off.  Returns the byte count and the updated
destination. -/
def msensor_read_bin_data (raw_data : List Nat) (attr_size : Nat)
    (buf : Nat → Nat) (off : Nat) (count : Nat) : Nat × (Nat → Nat) :=
  if attr_size ≤ off ∨ count = 0 then (0, buf)
  else
    let size := attr_size - off
    let size' := if count < size then count else size
    (size', fun j => if off ≤ j ∧ j < off + size' then raw_data.getD (j - off) 0 else buf j)

/-- Modelled from the spec: round half up of a / 2^k, the rounding mode
the specification claims for the right-shift path of float_to_fixed
(round to nearest integer, ties up). -/
def round_half_up (a k : Nat) : Nat := (a + 2^(k-1)) / 2^k

/-- Modelled from the spec: one round trip through the codec stays
within one unit in the last decimal place, the tolerance of the
spec's round-trip law.  Fuel 64 is ample for every terminating run of
msensor_itof; false also covers a diverging run. -/
def round_trip_ok (v : Int) (dp : Nat) : Bool :=
  match msensor_itof 64 v dp with
  | some bits => decide ((msensor_ftoi bits dp - v).natAbs ≤ 1)
  | none => false

/-- Modelled from the spec: the mode names decorated for display, the
name at the current mode's index wrapped in square brackets, from table
index a on. -/
def bracket_names (mode : Nat) : List (List Char) → Nat → List (List Char)
  | [], _ => []
  | nm :: rest, i =>
    (if i = mode then '[' :: (nm ++ [']']) else nm) :: bracket_names mode rest (i + 1)

/-- Modelled from the spec: a space-separated list of strings. -/
def space_separated : List (List Char) → List Char
  | [] => []
  | [x] => x
  | x :: xs => x ++ ' ' :: space_separated xs

/-- A concrete mode used by the 16-bit decoding example: two 16-bit
data sets with raw bytes 0x01 0x00 0xFF 0xFF. -/
def s16_example : msensor_mode_info :=
  ⟨['T'], 0, 2, msensor_data_format.MSENSOR_DATA_16, [1, 0, 255, 255]⟩

theorem norm_up_zero (fuel : Nat) : ∀ e, norm_up fuel 0 e = none := by
  induction fuel with
  | zero =>
    intro e
    simp [norm_up, Nat.shiftLeft_eq]
  | succ n ih =>
    intro e
    simp only [norm_up, Nat.zero_shiftLeft, Nat.zero_mod]
    rw [if_neg (by simp [Nat.shiftLeft_eq])]
    exact ih _

/-- C5: the claim that msensor_itof terminates for every nonzero input
is false: once the working mantissa reaches zero (here i = 1 with
dp = 9, where nine truncating divisions by 10 exhaust the 24-bit
mantissa), the lower normalization loop while (f < (1 << 23)) f <<= 1
never exits, modelled by no amount of fuel producing a result. -/
theorem itof_diverges_on_zero_mantissa (fuel : Nat) : msensor_itof fuel 1 9 = none := by
  simp only [msensor_itof]
  rw [if_neg (by decide : ¬ ((1 : Int) = 0))]
  rw [show (((1 : Int) * (if (1 : Int) < 0 then (-1 : Int) else 1)) % (2^32 : Int)).toNat = 1
    from by decide]
  rw [show ((1 : Nat) <<< 23) % 2^32 = 8388608 from by decide]
  rw [show div10_loop 8388608 9 = 0 from by decide]
  rw [show norm_down fuel 0 127 = some (0, 127) from by unfold norm_down; rw [if_pos (by decide)]]
  simp only [norm_up_zero]

/-- C1: evaluation of msensor_read_bin_data at raw buffer [10, 20],
attribute size 32, offset 1, count 1, on an all-zero destination page.
The call returns byte count 1, but the byte delivered to the reader
(position 0 of the page) is untouched and raw_data[0] = 10 has been
written at position 1: the copy source does not start at the requested
offset, contradicting the claimed window semantics. -/
theorem read_bin_data_ignores_offset :
    (msensor_read_bin_data [10, 20] 32 (fun _ => 0) 1 1).1 = 1 ∧
    (msensor_read_bin_data [10, 20] 32 (fun _ => 0) 1 1).2 1 = 10 ∧
    (msensor_read_bin_data [10, 20] 32 (fun _ => 0) 1 1).2 0 = 0 :=
  ⟨rfl, rfl, rfl⟩

/-- C2 counterexample: the bit pattern 0x50000000 encodes 2^33, which
overflows the fixed-point range, yet msensor_ftoi returns 0 rather than
saturating to INT_MAX: the scaled mantissa wraps modulo 2^32 in the
left-shift path. -/
theorem ftoi_overflow_wraps_to_zero :
    msensor_ftoi 0x50000000 0 = 0 ∧ msensor_ftoi 0x50000000 0 ≠ INT_MAX := by
  decide

/-- C7 counterexample: the bit pattern 0x4F000000 encodes +2^31 (sign
bit clear, exponent field 158), yet msensor_ftoi returns a negative
result: the unsigned product 2^31 converted to a 32-bit int wraps to
INT_MIN, so sign is not preserved on every non-zero non-all-ones
exponent field. -/
theorem ftoi_sign_flip_on_overflow :
    (0x4F000000 : Nat) &&& 0x80000000 = 0 ∧ msensor_ftoi 0x4F000000 0 < 0 := by
  decide

/-- C3 counterexample: the bit pattern 0x3FD00000 encodes 1.625, whose
nearest integer is 2 (round half up agrees, and there is no tie), yet
msensor_ftoi yields 1: adding half of the truncated remainder before
the shift is not round-to-nearest. -/
theorem ftoi_not_round_to_nearest :
    msensor_ftoi 0x3FD00000 0 = 1 ∧
    round_half_up ((fman 0x3FD00000 + 2^23) * 10^0) 23 = 2 := by
  decide

/-- C4 counterexample: at v = 100 and dp = 3 the round trip through the
codec is not within one unit in the last place: the 24-bit mantissa
scaled by 10^3 exceeds 2^32 and wraps, and float_to_fixed returns 4. -/
theorem round_trip_fails_at_dp3 : round_trip_ok 100 3 = false := by
  decide

set_option maxRecDepth 20000 in
/-- C4 amended: for every fixed-point v with absolute value at most 511
(the range on which the conversion to float does not overflow) and
every dp in 0..2, running fixed_to_float then float_to_fixed recovers v
to within one unit in the last decimal place.  dp = 3 is excluded: the
scaling of the 24-bit mantissa by 10^3 wraps the 32-bit unsigned long
(see the counterexample). -/
theorem round_trip_within_one :
    ∀ n : Nat, n < 1023 → ∀ dp : Nat, dp < 3 →
      round_trip_ok (((n : Nat) : Int) - 511) dp = true := by
  decide

theorem round_trip_within_one_witness :
    round_trip_ok (((611 : Nat) : Int) - 511) 2 = true :=
  round_trip_within_one 611 (by decide) 2 (by decide)

theorem toInt32_of_lt (i : Nat) (h : i < 2^31) : toInt32 (i : Int) = i := by
  simp only [toInt32]
  split <;> omega

theorem toInt32_neg_of_lt (i : Nat) (h : i < 2^31) : toInt32 (-(i : Int)) = -(i : Int) := by
  simp only [toInt32]
  split <;> omega

theorem scale10_eq (dp : Nat) : ∀ i : Nat, i < 2^32 → scale10 i dp = (i * 10^dp) % 2^32 := by
  induction dp with
  | zero =>
    intro i h
    simp only [scale10, pow_zero, Nat.mul_one]
    omega
  | succ n ih =>
    intro i h
    rw [show scale10 i (n + 1) = scale10 ((i * 10) % 2^32) n from rfl]
    rw [ih ((i * 10) % 2^32) (Nat.mod_lt _ (by norm_num))]
    rw [Nat.mod_mul_mod]
    congr 1
    ring

theorem msensor_ftoi_eq_normal (f dp : Nat) (he0 : fexp f ≠ 0) (hlt : fexp f < 150) :
    msensor_ftoi f dp =
      toInt32 (ftoi_sign f *
        (((scale10 (fman f + 2^23) dp
            + (scale10 (fman f + 2^23) dp % 2^(150 - fexp f)) / 2) % 2^32)
          / 2^(150 - fexp f) : Nat)) := by
  simp only [msensor_ftoi, Nat.shiftLeft_eq, Nat.shiftRight_eq_div_pow, one_mul, pow_one]
  rw [if_neg he0, if_neg (by omega), if_pos hlt]

/-- C2 amended: the saturation guarantee holds exactly for the special
values, namely every 32-bit pattern whose exponent field is all ones
(infinity and NaN): msensor_ftoi then returns INT_MAX for a clear sign
bit and INT_MIN for a set sign bit, for every decimals value.  For
finite inputs whose scaled value overflows, the arithmetic wraps
modulo 2^32 instead (see the counterexample). -/
theorem ftoi_saturates_on_inf_nan (f dp : Nat) (hf : f < 2^32) (he : fexp f = 255) :
    (f &&& 0x80000000 = 0 → msensor_ftoi f dp = INT_MAX) ∧
    (f &&& 0x80000000 ≠ 0 → msensor_ftoi f dp = INT_MIN) := by
  constructor <;> intro hs <;> simp [msensor_ftoi, he, ftoi_sign, hs]

theorem ftoi_saturates_on_inf_nan_witness :
    msensor_ftoi 0x7F800000 3 = INT_MAX ∧ msensor_ftoi 0xFF800000 0 = INT_MIN :=
  ⟨(ftoi_saturates_on_inf_nan 0x7F800000 3 (by decide) (by decide)).1 (by decide),
   (ftoi_saturates_on_inf_nan 0xFF800000 0 (by decide) (by decide)).2 (by decide)⟩

/-- C7 amended: msensor_ftoi is sign-preserving on every 32-bit pattern
whose exponent field lies in 119..149 (the right-shift path with a
shift amount below the machine word size) and every decimals value: a
clear sign bit yields a non-negative result and a set sign bit a
non-positive one.  For exponent fields of 150 and above the left shift
can wrap and flip the sign (see the counterexample), and below 119 the
C shift amount reaches 32 bits, which is undefined behaviour. -/
theorem ftoi_sign_preserving (f dp : Nat) (hf : f < 2^32)
    (hlo : 119 ≤ fexp f) (hhi : fexp f < 150) :
    (f &&& 0x80000000 = 0 → 0 ≤ msensor_ftoi f dp) ∧
    (f &&& 0x80000000 ≠ 0 → msensor_ftoi f dp ≤ 0) := by
  have h := msensor_ftoi_eq_normal f dp (by omega) hhi
  have hk : 1 ≤ 150 - fexp f := by omega
  have hxlt : (scale10 (fman f + 2^23) dp
      + (scale10 (fman f + 2^23) dp % 2^(150 - fexp f)) / 2) % 2^32 < 2^32 :=
    Nat.mod_lt _ (by norm_num)
  have hq : ((scale10 (fman f + 2^23) dp
      + (scale10 (fman f + 2^23) dp % 2^(150 - fexp f)) / 2) % 2^32)
        / 2^(150 - fexp f) < 2^31 := by
    apply Nat.div_lt_of_lt_mul
    calc ((scale10 (fman f + 2^23) dp
        + (scale10 (fman f + 2^23) dp % 2^(150 - fexp f)) / 2) % 2^32) < 2^32 := hxlt
    _ ≤ 2^(150 - fexp f) * 2^31 := by
        rw [← pow_add]
        exact Nat.pow_le_pow_right (by norm_num) (by omega)
  constructor
  · intro hs
    rw [h]
    simp only [ftoi_sign, hs]
    rw [if_neg (by simp), one_mul, toInt32_of_lt _ hq]
    exact Int.ofNat_nonneg _
  · intro hs
    rw [h]
    rw [show ftoi_sign f = -1 from by simp [ftoi_sign, hs]]
    rw [neg_one_mul, toInt32_neg_of_lt _ hq]
    exact neg_nonpos.mpr (by positivity)

theorem ftoi_sign_preserving_witness :
    0 ≤ msensor_ftoi 0x3F800000 0 ∧ msensor_ftoi 0xBF800000 0 ≤ 0 :=
  ⟨(ftoi_sign_preserving 0x3F800000 0 (by decide) (by decide) (by decide)).1 (by decide),
   (ftoi_sign_preserving 0xBF800000 0 (by decide) (by decide) (by decide)).2 (by decide)⟩

/-- C3 amended: on the right-shift path with exponent field in 119..149
and with the scaled mantissa (mantissa + 2^23) * 10^dp below 2^31 (no
32-bit wraparound), msensor_ftoi returns the scaled value faithfully
rounded: the magnitude is either the floor or the ceiling of the exact
quotient by 2^(150 - e), with the sign applied.  The rounding is not
round-to-nearest (the code adds half of the truncated remainder, not
half of the divisor; see the counterexample at 1.625). -/
theorem ftoi_faithful_rounding (f dp : Nat)
    (hlo : 119 ≤ fexp f) (hhi : fexp f < 150)
    (hov : (fman f + 2^23) * 10^dp < 2^31) :
    msensor_ftoi f dp
        = ftoi_sign f * (((fman f + 2^23) * 10^dp / 2^(150 - fexp f) : Nat) : Int) ∨
    msensor_ftoi f dp
        = ftoi_sign f * ((((fman f + 2^23) * 10^dp / 2^(150 - fexp f) : Nat) : Int) + 1) := by
  have h := msensor_ftoi_eq_normal f dp (by omega) hhi
  have hman : fman f + 2^23 < 2^32 := by
    have h23 : fman f < 2^23 := Nat.and_lt_two_pow f (by norm_num)
    omega
  have hI : scale10 (fman f + 2^23) dp = (fman f + 2^23) * 10^dp := by
    rw [scale10_eq dp _ hman]
    exact Nat.mod_eq_of_lt (lt_trans hov (by norm_num))
  rw [hI] at h
  have hk : 1 ≤ 150 - fexp f := by omega
  have hr : (fman f + 2^23) * 10^dp % 2^(150 - fexp f) ≤ (fman f + 2^23) * 10^dp :=
    Nat.mod_le _ _
  have hsum : (fman f + 2^23) * 10^dp
      + ((fman f + 2^23) * 10^dp % 2^(150 - fexp f)) / 2 < 2^32 := by omega
  rw [Nat.mod_eq_of_lt hsum] at h
  have hkey : ((fman f + 2^23) * 10^dp
        + ((fman f + 2^23) * 10^dp % 2^(150 - fexp f)) / 2) / 2^(150 - fexp f)
      = (fman f + 2^23) * 10^dp / 2^(150 - fexp f) ∨
      ((fman f + 2^23) * 10^dp
        + ((fman f + 2^23) * 10^dp % 2^(150 - fexp f)) / 2) / 2^(150 - fexp f)
      = (fman f + 2^23) * 10^dp / 2^(150 - fexp f) + 1 := by
    have hdm := Nat.div_add_mod ((fman f + 2^23) * 10^dp) (2^(150 - fexp f))
    have hrlt : (fman f + 2^23) * 10^dp % 2^(150 - fexp f) < 2^(150 - fexp f) :=
      Nat.mod_lt _ (by positivity)
    have hsplit : (fman f + 2^23) * 10^dp
        + ((fman f + 2^23) * 10^dp % 2^(150 - fexp f)) / 2
        = 2^(150 - fexp f) * ((fman f + 2^23) * 10^dp / 2^(150 - fexp f))
          + ((fman f + 2^23) * 10^dp % 2^(150 - fexp f)
            + ((fman f + 2^23) * 10^dp % 2^(150 - fexp f)) / 2) := by omega
    rw [hsplit, Nat.mul_add_div (by positivity)]
    have hle : ((fman f + 2^23) * 10^dp % 2^(150 - fexp f)
        + ((fman f + 2^23) * 10^dp % 2^(150 - fexp f)) / 2) / 2^(150 - fexp f) ≤ 1 := by
      have hlt2 : (fman f + 2^23) * 10^dp % 2^(150 - fexp f)
          + ((fman f + 2^23) * 10^dp % 2^(150 - fexp f)) / 2 < 2^(150 - fexp f) * 2 := by
        omega
      exact Nat.lt_succ_iff.mp (Nat.div_lt_of_lt_mul hlt2)
    rcases Nat.le_one_iff_eq_zero_or_eq_one.mp hle with h0 | h1
    · left
      rw [h0]
      exact Nat.add_zero _
    · right
      rw [h1]
  have hq31 : ((fman f + 2^23) * 10^dp
      + ((fman f + 2^23) * 10^dp % 2^(150 - fexp f)) / 2) / 2^(150 - fexp f) < 2^31 := by
    apply Nat.div_lt_of_lt_mul
    calc (fman f + 2^23) * 10^dp
        + ((fman f + 2^23) * 10^dp % 2^(150 - fexp f)) / 2 < 2^32 := hsum
    _ ≤ 2^(150 - fexp f) * 2^31 := by
        rw [← pow_add]
        exact Nat.pow_le_pow_right (by norm_num) (by omega)
  by_cases hs : f &&& 0x80000000 = 0
  · have hsign : ftoi_sign f = 1 := by simp [ftoi_sign, hs]
    rw [hsign, one_mul] at h ⊢
    rw [toInt32_of_lt _ hq31] at h
    rcases hkey with hk1 | hk1
    · left
      rw [h, hk1]
    · right
      rw [h, hk1]
      push_cast
      ring
  · have hsign : ftoi_sign f = -1 := by simp [ftoi_sign, hs]
    rw [hsign, neg_one_mul] at h ⊢
    rw [toInt32_neg_of_lt _ hq31] at h
    rcases hkey with hk1 | hk1
    · left
      rw [h, hk1]
    · right
      rw [h, hk1]
      push_cast
      ring

theorem ftoi_faithful_rounding_witness :
    msensor_ftoi 0x3FC00000 0
        = ftoi_sign 0x3FC00000
          * (((fman 0x3FC00000 + 2^23) * 10^0 / 2^(150 - fexp 0x3FC00000) : Nat) : Int) ∨
    msensor_ftoi 0x3FC00000 0
        = ftoi_sign 0x3FC00000
          * ((((fman 0x3FC00000 + 2^23) * 10^0 / 2^(150 - fexp 0x3FC00000) : Nat) : Int) + 1) :=
  ftoi_faithful_rounding 0x3FC00000 0 (by decide) (by decide) (by decide)

/-- C8: decoding a value fails with minus ENXIO exactly when the requested
index is negative or at least the current mode's data_sets; every
in-range index succeeds, for each of the four formats. -/
theorem show_value_error_iff (mi : msensor_mode_info) (index : Int) :
    msensor_show_value mi index = Except.error (-ENXIO_errno) ↔
      (index < 0 ∨ (mi.data_sets : Int) ≤ index) := by
  by_cases hcond : index < 0 ∨ (mi.data_sets : Int) ≤ index
  · simp [msensor_show_value, hcond]
  · cases hfmt : mi.format <;> simp [msensor_show_value, hcond, hfmt]

/-- C9: for a mode in 16-bit signed format, every in-range index decodes
the two raw-buffer bytes at offset index * 2 as a little-endian signed
16-bit integer. -/
theorem show_value_s16_decode (mi : msensor_mode_info) (index : Int)
    (hfmt : mi.format = msensor_data_format.MSENSOR_DATA_16)
    (h0 : 0 ≤ index) (hlt : index < (mi.data_sets : Int)) :
    msensor_show_value mi index =
      Except.ok (toSigned 16 (mi.raw_data.getD (index.toNat * 2) 0
        + 256 * mi.raw_data.getD (index.toNat * 2 + 1) 0)) := by
  unfold msensor_show_value
  rw [if_neg (by omega), hfmt]
  rfl

theorem show_value_s16_decode_witness :
    msensor_show_value s16_example 0 = Except.ok 1 ∧
    msensor_show_value s16_example 1 = Except.ok (-1) := by
  constructor
  · have h := show_value_s16_decode s16_example 0 rfl (by decide) (by decide)
    rw [h]
    rfl
  · have h := show_value_s16_decode s16_example 1 rfl (by decide) (by decide)
    rw [h]
    rfl

theorem store_mode_loop_no_match {σ : Type} (set_mode : σ → Nat → Int × σ) (ctx : σ)
    (buf : List Char) (count : Int) :
    ∀ (l : List (List Char)) (a : Nat),
      (∀ nm ∈ l, sysfs_streq buf nm = false) →
      store_mode_loop set_mode ctx buf count l a = (-EINVAL, ctx) := by
  intro l
  induction l with
  | nil => intro a _; rfl
  | cons x xs ih =>
    intro a hall
    simp only [store_mode_loop, hall x (List.mem_cons_self x xs), Bool.false_eq_true, if_false]
    exact ih (a + 1) (fun nm hm => hall nm (List.mem_cons_of_mem _ hm))

theorem store_mode_loop_first_match {σ : Type} (set_mode : σ → Nat → Int × σ) (ctx : σ)
    (buf : List Char) (count : Int) (nm : List Char) (post : List (List Char))
    (hnm : sysfs_streq buf nm = true) :
    ∀ (pre : List (List Char)) (a : Nat),
      (∀ x ∈ pre, sysfs_streq buf x = false) →
      store_mode_loop set_mode ctx buf count (pre ++ nm :: post) a =
        (if (set_mode ctx (a + pre.length)).1 ≠ 0
          then ((set_mode ctx (a + pre.length)).1, (set_mode ctx (a + pre.length)).2)
          else (count, (set_mode ctx (a + pre.length)).2)) := by
  intro pre
  induction pre with
  | nil =>
    intro a _
    simp only [List.nil_append, store_mode_loop, hnm, if_true, List.length_nil, Nat.add_zero]
  | cons x xs ih =>
    intro a hall
    simp only [List.cons_append, store_mode_loop,
      hall x (List.mem_cons_self x xs), Bool.false_eq_true, if_false, List.append_eq]
    rw [ih (a + 1) (fun y hy => hall y (List.mem_cons_of_mem _ hy))]
    simp only [List.length_cons]
    rw [show a + 1 + xs.length = a + (xs.length + 1) from by omega]

/-- C6: storing a mode name that matches no table entry (under
sysfs_streq) returns -EINVAL with the driver context untouched, so the
current mode is unchanged; and when the first match sits after the
prefix pre, the driver's set_mode callback is invoked with that entry's
index, a nonzero callback error is returned verbatim, and — given the
driver contract that a failing callback leaves the reported mode
unchanged — the previous mode remains current. -/
theorem store_mode_spec {σ : Type} (set_mode : σ → Nat → Int × σ) (get_mode : σ → Nat)
    (ctx : σ) (names : List (List Char)) (buf : List Char) (count : Int) :
    ((∀ nm ∈ names, sysfs_streq buf nm = false) →
        msensor_store_mode set_mode ctx names buf count = (-EINVAL, ctx)) ∧
    (∀ (pre : List (List Char)) (nm : List Char) (post : List (List Char))
        (err : Int) (ctx' : σ),
      names = pre ++ nm :: post →
      (∀ x ∈ pre, sysfs_streq buf x = false) →
      sysfs_streq buf nm = true →
      set_mode ctx pre.length = (err, ctx') →
      err ≠ 0 →
      msensor_store_mode set_mode ctx names buf count = (err, ctx') ∧
        (get_mode ctx' = get_mode ctx →
          get_mode (msensor_store_mode set_mode ctx names buf count).2 = get_mode ctx)) := by
  constructor
  · intro hall
    exact store_mode_loop_no_match set_mode ctx buf count names 0 hall
  · intro pre nm post err ctx' hsplit hpre hnm hset herr
    have h := store_mode_loop_first_match set_mode ctx buf count nm post hnm pre 0 hpre
    rw [Nat.zero_add, hset] at h
    rw [if_pos herr] at h
    unfold msensor_store_mode
    rw [hsplit, h]
    exact ⟨rfl, fun hm => hm⟩

theorem store_mode_spec_witness :
    msensor_store_mode (fun (s : Nat) (_ : Nat) => ((-5 : Int), s)) 0
        [['A'], ['B']] ['B'] 2 = (-5, 0) ∧
    msensor_store_mode (fun (s : Nat) (_ : Nat) => ((-5 : Int), s)) 0
        [['A'], ['B']] ['Z'] 2 = (-EINVAL, 0) := by
  constructor
  · exact ((store_mode_spec (fun s _ => ((-5 : Int), s)) id 0 [['A'], ['B']] ['B'] 2).2
      [['A']] ['B'] [] (-5) 0 rfl (by decide) (by decide) rfl (by decide)).1
  · exact (store_mode_spec (fun s _ => ((-5 : Int), s)) id 0 [['A'], ['B']] ['Z'] 2).1 (by decide)

theorem show_mode_loop_eq (mode : Nat) :
    ∀ (l : List (List Char)) (a : Nat), l ≠ [] →
      show_mode_loop mode l a = space_separated (bracket_names mode l a) ++ [' '] := by
  intro l
  induction l with
  | nil =>
    intro a h
    exact absurd rfl h
  | cons x xs ih =>
    intro a _
    cases xs with
    | nil =>
      by_cases hm : a = mode <;>
        simp [show_mode_loop, bracket_names, space_separated, hm]
    | cons y ys =>
      rw [show show_mode_loop mode (x :: y :: ys) a =
        (if a = mode then ['['] else []) ++ x ++ (if a = mode then [']'] else [])
          ++ [' '] ++ show_mode_loop mode (y :: ys) (a + 1) from rfl]
      rw [ih (a + 1) (by simp)]
      rw [show bracket_names mode (x :: y :: ys) a =
        (if a = mode then '[' :: (x ++ [']']) else x)
          :: bracket_names mode (y :: ys) (a + 1) from rfl]
      rw [show bracket_names mode (y :: ys) (a + 1) =
        (if a + 1 = mode then '[' :: (y ++ [']']) else y)
          :: bracket_names mode ys (a + 2) from rfl]
      rw [show space_separated ((if a = mode then '[' :: (x ++ [']']) else x)
          :: (if a + 1 = mode then '[' :: (y ++ [']']) else y) :: bracket_names mode ys (a + 2))
        = (if a = mode then '[' :: (x ++ [']']) else x)
          ++ ' ' :: space_separated ((if a + 1 = mode then '[' :: (y ++ [']']) else y)
            :: bracket_names mode ys (a + 2)) from rfl]
      by_cases hm : a = mode <;> simp [hm, List.append_assoc]

/-- C10: with a non-empty mode table, msensor_show_mode yields the
space-separated mode names in table order, the name at the current
index wrapped in square brackets, terminated by the newline that
overwrites the final trailing space; an empty table yields -ENXIO_errno. -/
theorem show_mode_list_spec (names : List (List Char)) (mode : Nat) :
    (names = [] → msensor_show_mode names mode = Except.error (-ENXIO_errno)) ∧
    (names ≠ [] → msensor_show_mode names mode =
        Except.ok (space_separated (bracket_names mode names 0) ++ ['\n'])) := by
  constructor
  · intro h
    subst h
    rfl
  · intro h
    unfold msensor_show_mode
    rw [show_mode_loop_eq mode names 0 h]
    rw [if_neg (by simp)]
    rw [List.dropLast_concat]

theorem show_mode_list_spec_witness :
    msensor_show_mode [['A'], ['B'], ['C']] 1 =
      Except.ok ['A', ' ', '[', 'B', ']', ' ', 'C', '\n'] := by
  have h := (show_mode_list_spec [['A'], ['B'], ['C']] 1).2 (by simp)
  rw [h]
  rfl
